import Mathlib

/-!
Verification of the imperative-portal lifecycle store.

The development shallowly embeds the canonical variant of the library
(the `createImperativePortal` built on `createStore`):

* `setStore` embeds the generic reactive store's `set` (store.ts):
  it applies the updater, compares the result with the current snapshot
  by reference identity (`Object.is`), and on change commits and
  returns the listeners to notify, in subscription order.
* `PortalState` holds one registry's state: the store snapshot (an array
  of entries with its allocation identity, so that reference identity is
  expressible), the per-handle settlement state keyed by the handle's
  key, and the subscribed listeners.
* `showOp`, `resolveOp`, `rejectOp`, `updateOp` embed the registry
  operations `show`, `resolve`, `reject`, `update`; `settleOp` embeds
  the internal `settle` closure.  Each returns the next state together
  with the trace of listener notifications, each notification paired
  with the registry snapshot observable at the moment the listener runs.

JavaScript arrays returned by `filter`, `map` and spread are always
fresh allocations, never the array they were derived from; this is
modelled by giving the derived array the allocation id `id + 1` of its
parent, which is all `Object.is` against the parent can observe.
-/

/-- A JS array value together with its allocation identity:
`Object.is` on arrays compares the `id` component. -/
structure Arr (α : Type) where
  id : Nat
  val : List α
  deriving DecidableEq, Repr

/-- `Object.is` restricted to arrays: reference identity. -/
def objectIs {α : Type} (a b : Arr α) : Bool := a.id == b.id

/-- The generic reactive store of store.ts: one snapshot and the
listeners, kept in subscription order (JS `Set` iterates in insertion
order). -/
structure Store (S : Type) where
  state : S
  listeners : List Nat
  deriving DecidableEq, Repr

/-- `set(factory)` from store.ts: compute `next = factory(state)`; if
`Object.is(next, state)` fails, commit `next` and notify every listener.
The returned list is the listeners notified, in subscription order;
an empty list means no notification. -/
def setStore {S : Type} (refEq : S → S → Bool) (st : Store S)
    (factory : S → S) : Store S × List Nat :=
  let nextState := factory st.state
  if refEq nextState st.state then (st, [])
  else ({ state := nextState, listeners := st.listeners }, st.listeners)

/-- `subscribe(listener)` from store.ts: adds to the listener `Set`
(a JS Set ignores re-insertion of a present element). -/
def subscribeStore {S : Type} (st : Store S) (l : Nat) : Store S :=
  if st.listeners.contains l then st
  else { st with listeners := st.listeners ++ [l] }

/-- The one-shot deferred computation behind `Promise.withResolvers`. -/
inductive Deferred (T E : Type) where
  | pending
  | fulfilled (v : T)
  | rejected (e : E)
  deriving DecidableEq, Repr

/-- Resolving a JS promise: only a pending promise changes state. -/
def deferredResolve {T E : Type} (d : Deferred T E) (v : T) : Deferred T E :=
  match d with
  | .pending => .fulfilled v
  | _ => d

/-- Rejecting a JS promise: only a pending promise changes state. -/
def deferredReject {T E : Type} (d : Deferred T E) (e : E) : Deferred T E :=
  match d with
  | .pending => .rejected e
  | _ => d

/-- The mutable state of one `ImperativePromise`: the `settled` flag and
the underlying deferred. -/
structure HandleState (T E : Type) where
  settled : Bool
  deferred : Deferred T E
  deriving DecidableEq, Repr

/-- One element of the store's `nodes` array, as built by `createNode`:
`key` is the entry's key, `providerValue` is the handle published by the
context provider wrapped around the content, `child` the content put
under the provider, and `promiseRef` the entry's `promise` field.
A handle object is identified by its `key` (one handle per `show`). -/
structure Entry (C : Type) where
  key : Nat
  providerValue : Nat
  child : C
  promiseRef : Nat
  deriving DecidableEq, Repr

/-- `ReactNodeOrFactory`: content is a plain payload or a function of
the entry's own handle (identified by its key). -/
inductive NodeOrFactory (C : Type) where
  | plain (c : C)
  | factory (f : Nat → C)

/-- `createNode` from index.ts: wraps the content in a provider whose
value is this entry's handle, applying the content to the handle first
when it is a function. -/
def createNode {C : Type} (key : Nat) (node : NodeOrFactory C) : Entry C :=
  { key := key
    providerValue := key
    child := match node with
             | .plain c => c
             | .factory f => f key
    promiseRef := key }

/-- The full state of one registry made by `createImperativePortal`:
the key generator's counter, the store snapshot, the per-key handle
states (in `show`-call order), and the store's listeners. -/
structure PortalState (C T E : Type) where
  nextKey : Nat
  nodes : Arr (Entry C)
  handles : List (Nat × HandleState T E)
  listeners : List Nat
  deriving DecidableEq, Repr

/-- What a listener observes when it runs during a `set` notification:
the current nodes array contents and every handle's current state. -/
structure Snapshot (C T E : Type) where
  nodesVal : List (Entry C)
  handles : List (Nat × HandleState T E)
  deriving DecidableEq, Repr

/-- Read a handle's state by key (first match, as for object identity
there is at most one). -/
def getHandle {T E : Type} (hs : List (Nat × HandleState T E)) (k : Nat) :
    Option (HandleState T E) :=
  match hs with
  | [] => none
  | p :: rest => if p.1 == k then some p.2 else getHandle rest k

/-- Mutate the handle with key `k` in place (every pair carrying that
key is transformed). -/
def setHandle {T E : Type} (hs : List (Nat × HandleState T E)) (k : Nat)
    (f : HandleState T E → HandleState T E) : List (Nat × HandleState T E) :=
  hs.map (fun p => if p.1 == k then (p.1, f p.2) else p)

/-- A registry-level `store.set` call: runs the generic store's `set`
with `Object.is` as the identity test, and pairs every notified listener
with the registry snapshot it observes at call time (the just-committed
nodes and the handle states as they stand, since handle mutation in the
source happens outside `set`). -/
def regSet {C T E : Type} (s : PortalState C T E)
    (factory : Arr (Entry C) → Arr (Entry C)) :
    PortalState C T E × List (Nat × Snapshot C T E) :=
  let r := setStore objectIs ⟨s.nodes, s.listeners⟩ factory
  let s' := { s with nodes := r.1.state }
  (s', r.2.map (fun l => (l, ⟨s'.nodes.val, s'.handles⟩)))

/-- Modelled from the spec: the source imports `uniqueId` from
unique-id.ts, a file absent from the repository snapshot; §5 of the
spec prescribes a monotonically incrementing counter, embedded here as
`nextKey`. `show` from index.ts: generate a fresh key, create the
pending deferred and the unsettled promise object, then append the
wrapped entry to the store via `set`. Returns the new state, the key
identifying the returned handle, and the notification trace. -/
def showOp {C T E : Type} (s : PortalState C T E) (node : NodeOrFactory C) :
    PortalState C T E × Nat × List (Nat × Snapshot C T E) :=
  let key := s.nextKey
  let s1 : PortalState C T E :=
    { s with nextKey := s.nextKey + 1
             handles := s.handles ++ [(key, ⟨false, .pending⟩)] }
  let r := regSet s1 (fun nodes => ⟨nodes.id + 1, nodes.val ++ [createNode key node]⟩)
  (r.1, key, r.2)

/-- `settle` from index.ts: return immediately when already settled;
otherwise filter this key's entry out of the nodes array via `set`
(notifying listeners), and only afterwards set the `settled` flag. -/
def settleOp {C T E : Type} (s : PortalState C T E) (key : Nat) :
    PortalState C T E × List (Nat × Snapshot C T E) :=
  match getHandle s.handles key with
  | none => (s, [])
  | some h =>
    if h.settled then (s, [])
    else
      let r := regSet s (fun nodes => ⟨nodes.id + 1, nodes.val.filter (fun n => n.key != key)⟩)
      ({ r.1 with handles := setHandle r.1.handles key (fun hh => { hh with settled := true }) },
       r.2)

/-- `resolve` from index.ts: settle the deferred with the value (a no-op
on the deferred when it is no longer pending), then `settle`. -/
def resolveOp {C T E : Type} (s : PortalState C T E) (key : Nat) (v : T) :
    PortalState C T E × List (Nat × Snapshot C T E) :=
  settleOp { s with handles := setHandle s.handles key
                      (fun h => { h with deferred := deferredResolve h.deferred v }) } key

/-- `reject` from index.ts: settle the deferred with the error, then
`settle`. -/
def rejectOp {C T E : Type} (s : PortalState C T E) (key : Nat) (e : E) :
    PortalState C T E × List (Nat × Snapshot C T E) :=
  settleOp { s with handles := setHandle s.handles key
                      (fun h => { h with deferred := deferredReject h.deferred e }) } key

/-- `update` from index.ts: rebuild the nodes array, replacing the entry
carrying this key by a freshly wrapped node (`map` always allocates a
new array). -/
def updateOp {C T E : Type} (s : PortalState C T E) (key : Nat)
    (node : NodeOrFactory C) :
    PortalState C T E × List (Nat × Snapshot C T E) :=
  regSet s (fun nodes =>
    ⟨nodes.id + 1, nodes.val.map (fun n => if n.key == key then createNode key node else n)⟩)

/-- Registering a presentation-layer listener with the registry's store. -/
def subscribeOp {C T E : Type} (s : PortalState C T E) (l : Nat) :
    PortalState C T E :=
  let st := subscribeStore (⟨s.nodes, s.listeners⟩ : Store (Arr (Entry C))) l
  { s with listeners := st.listeners }

/-- `useImperativePromise` from index.ts: read the nearest provider's
value from context; `null` (no enclosing provider) throws the
missing-context error instead of returning any default. -/
def useImperativePromise (ctx : Option Nat) : Except String Nat :=
  match ctx with
  | none => .error "useImperativePromise must be used within an imperative portal"
  | some h => .ok h

/-- The registry created by `createImperativePortal`: empty store
snapshot, no handles, no listeners, key counter at its start. -/
def portalInit {C T E : Type} : PortalState C T E :=
  { nextKey := 0, nodes := ⟨0, []⟩, handles := [], listeners := [] }

/-- One external call into a registry's public surface. -/
inductive Op (C T E : Type) where
  | doShow (n : NodeOrFactory C)
  | doResolve (k : Nat) (v : T)
  | doReject (k : Nat) (e : E)
  | doUpdate (k : Nat) (n : NodeOrFactory C)
  | doSubscribe (l : Nat)

/-- The state reached after one call (notification traces and returned
handles discarded). -/
def step {C T E : Type} (s : PortalState C T E) (op : Op C T E) :
    PortalState C T E :=
  match op with
  | .doShow n => (showOp s n).1
  | .doResolve k v => (resolveOp s k v).1
  | .doReject k e => (rejectOp s k e).1
  | .doUpdate k n => (updateOp s k n).1
  | .doSubscribe l => subscribeOp s l

/-- Running a sequence of calls from a given state. -/
def run {C T E : Type} (s : PortalState C T E) (ops : List (Op C T E)) :
    PortalState C T E :=
  ops.foldl step s

/-- Number of `show` calls in a call sequence. -/
def countShows {C T E : Type} : List (Op C T E) → Nat
  | [] => 0
  | .doShow _ :: rest => countShows rest + 1
  | _ :: rest => countShows rest

/-- Keys of the handles not yet settled, in `show`-call order. -/
def unsettledKeys {T E : Type} (hs : List (Nat × HandleState T E)) : List Nat :=
  (hs.filter (fun p => !p.2.settled)).map (fun p => p.1)

/-- Number of settled handles. -/
def settledCount {T E : Type} (hs : List (Nat × HandleState T E)) : Nat :=
  (hs.filter (fun p => p.2.settled)).length

/-- The registry's reachability invariant: the visible entry keys are
exactly the unsettled handles' keys in `show` order, and the handles
list carries the keys `0, 1, ...` in generation order. -/
def RegInv {C T E : Type} (s : PortalState C T E) : Prop :=
  s.nodes.val.map (fun e => e.key) = unsettledKeys s.handles
  ∧ s.handles.map (fun p => p.1) = List.range s.nextKey

/-- A world of two registries made by two separate
`createImperativePortal()` calls, with one external call routed to one
of them: `true` targets the first registry, `false` the second. -/
def stepEither {C T E : Type} (w : PortalState C T E × PortalState C T E)
    (op : Bool × Op C T E) : PortalState C T E × PortalState C T E :=
  if op.1 then (step w.1 op.2, w.2) else (w.1, step w.2 op.2)

/-- Running an interleaved call sequence against a pair of registries. -/
def runPair {C T E : Type} (w : PortalState C T E × PortalState C T E)
    (ops : List (Bool × Op C T E)) : PortalState C T E × PortalState C T E :=
  ops.foldl stepEither w

/-! ### Helper lemmas about handle-state bookkeeping -/

theorem getHandle_setHandle {T E : Type} (hs : List (Nat × HandleState T E))
    (k : Nat) (f : HandleState T E → HandleState T E) :
    getHandle (setHandle hs k f) k = (getHandle hs k).map f := by
  induction hs with
  | nil => rfl
  | cons p rest ih =>
    by_cases h : p.1 = k
    · simp [setHandle, getHandle, h]
    · simp only [setHandle, getHandle, List.map_cons, beq_iff_eq] at ih ⊢
      simp [h, ih]

theorem setHandle_setHandle {T E : Type} (hs : List (Nat × HandleState T E))
    (k : Nat) (f g : HandleState T E → HandleState T E) :
    setHandle (setHandle hs k f) k g = setHandle hs k (fun h => g (f h)) := by
  simp only [setHandle, List.map_map]
  apply List.map_congr_left
  intro p _
  by_cases h : p.1 = k <;> simp [h]

theorem map_fst_setHandle {T E : Type} (hs : List (Nat × HandleState T E))
    (k : Nat) (f : HandleState T E → HandleState T E) :
    (setHandle hs k f).map (fun p => p.1) = hs.map (fun p => p.1) := by
  simp only [setHandle, List.map_map]
  apply List.map_congr_left
  intro p _
  by_cases h : p.1 = k <;> simp [h]

theorem setHandle_length {T E : Type} (hs : List (Nat × HandleState T E))
    (k : Nat) (f : HandleState T E → HandleState T E) :
    (setHandle hs k f).length = hs.length := by
  simp [setHandle]

theorem deferredResolve_deferredResolve {T E : Type} (d : Deferred T E)
    (v w : T) : deferredResolve (deferredResolve d v) w = deferredResolve d v := by
  cases d <;> rfl

theorem deferredReject_deferredResolve {T E : Type} (d : Deferred T E)
    (v : T) (e : E) : deferredReject (deferredResolve d v) e = deferredResolve d v := by
  cases d <;> rfl

theorem deferredResolve_deferredReject {T E : Type} (d : Deferred T E)
    (e : E) (v : T) : deferredResolve (deferredReject d e) v = deferredReject d e := by
  cases d <;> rfl

theorem deferredReject_deferredReject {T E : Type} (d : Deferred T E)
    (e e2 : E) : deferredReject (deferredReject d e) e2 = deferredReject d e := by
  cases d <;> rfl

/-! ### Unfolding lemmas for `settle` -/

theorem settleOp_of_none {C T E : Type} (s : PortalState C T E) (k : Nat)
    (hget : getHandle s.handles k = none) : settleOp s k = (s, []) := by
  simp [settleOp, hget]

theorem settleOp_of_settled {C T E : Type} (s : PortalState C T E) (k : Nat)
    (h : HandleState T E) (hget : getHandle s.handles k = some h)
    (hs : h.settled = true) : settleOp s k = (s, []) := by
  simp [settleOp, hget, hs]

theorem settleOp_of_unsettled {C T E : Type} (s : PortalState C T E) (k : Nat)
    (h : HandleState T E) (hget : getHandle s.handles k = some h)
    (hs : h.settled = false) :
    settleOp s k =
      ({ s with nodes := ⟨s.nodes.id + 1, s.nodes.val.filter (fun n => n.key != k)⟩
                handles := setHandle s.handles k (fun hh => { hh with settled := true }) },
       s.listeners.map (fun l =>
         (l, ⟨s.nodes.val.filter (fun n => n.key != k), s.handles⟩))) := by
  simp [settleOp, hget, hs, regSet, setStore, objectIs, Nat.succ_ne_self]

theorem resolveOp_of_pending {C T E : Type} (s : PortalState C T E) (k : Nat)
    (v : T) (h : getHandle s.handles k = some ⟨false, Deferred.pending⟩) :
    resolveOp s k v =
      ({ s with nodes := ⟨s.nodes.id + 1, s.nodes.val.filter (fun n => n.key != k)⟩
                handles := setHandle s.handles k
                  (fun hh => ⟨true, deferredResolve hh.deferred v⟩) },
       s.listeners.map (fun l =>
         (l, ⟨s.nodes.val.filter (fun n => n.key != k),
              setHandle s.handles k
                (fun hh => { hh with deferred := deferredResolve hh.deferred v })⟩))) := by
  have hget : getHandle
      (setHandle s.handles k
        (fun hh => { hh with deferred := deferredResolve hh.deferred v })) k
      = some ⟨false, Deferred.fulfilled v⟩ := by
    rw [getHandle_setHandle, h]; rfl
  rw [resolveOp, settleOp_of_unsettled _ _ _ hget rfl]
  simp [setHandle_setHandle]

theorem rejectOp_of_pending {C T E : Type} (s : PortalState C T E) (k : Nat)
    (e : E) (h : getHandle s.handles k = some ⟨false, Deferred.pending⟩) :
    rejectOp s k e =
      ({ s with nodes := ⟨s.nodes.id + 1, s.nodes.val.filter (fun n => n.key != k)⟩
                handles := setHandle s.handles k
                  (fun hh => ⟨true, deferredReject hh.deferred e⟩) },
       s.listeners.map (fun l =>
         (l, ⟨s.nodes.val.filter (fun n => n.key != k),
              setHandle s.handles k
                (fun hh => { hh with deferred := deferredReject hh.deferred e })⟩))) := by
  have hget : getHandle
      (setHandle s.handles k
        (fun hh => { hh with deferred := deferredReject hh.deferred e })) k
      = some ⟨false, Deferred.rejected e⟩ := by
    rw [getHandle_setHandle, h]; rfl
  rw [rejectOp, settleOp_of_unsettled _ _ _ hget rfl]
  simp [setHandle_setHandle]

/-! ### Key bookkeeping lemmas -/

theorem unsettledKeys_cons {T E : Type} (p : Nat × HandleState T E)
    (hs : List (Nat × HandleState T E)) :
    unsettledKeys (p :: hs)
      = if p.2.settled then unsettledKeys hs else p.1 :: unsettledKeys hs := by
  by_cases h : p.2.settled <;> simp [unsettledKeys, List.filter_cons, h]

theorem unsettledKeys_append {T E : Type} (hs1 hs2 : List (Nat × HandleState T E)) :
    unsettledKeys (hs1 ++ hs2) = unsettledKeys hs1 ++ unsettledKeys hs2 := by
  simp [unsettledKeys, List.filter_append]

theorem unsettledKeys_setHandle_keep {T E : Type}
    (hs : List (Nat × HandleState T E)) (k : Nat)
    (f : HandleState T E → HandleState T E)
    (hf : ∀ x, (f x).settled = x.settled) :
    unsettledKeys (setHandle hs k f) = unsettledKeys hs := by
  induction hs with
  | nil => rfl
  | cons p rest ih =>
    simp only [setHandle, List.map_cons, beq_iff_eq] at ih ⊢
    by_cases h : p.1 = k
    · simp [unsettledKeys_cons, h, hf, ih]
    · simp [unsettledKeys_cons, h, ih]

theorem unsettledKeys_setHandle_settled {T E : Type}
    (hs : List (Nat × HandleState T E)) (k : Nat) :
    unsettledKeys (setHandle hs k (fun hh => { hh with settled := true }))
      = (unsettledKeys hs).filter (fun x => x != k) := by
  induction hs with
  | nil => rfl
  | cons p rest ih =>
    simp only [setHandle, List.map_cons, beq_iff_eq] at ih ⊢
    by_cases h : p.1 = k
    · by_cases hset : p.2.settled <;>
        simp [unsettledKeys_cons, h, hset, ih, List.filter_cons]
    · by_cases hset : p.2.settled <;>
        simp [unsettledKeys_cons, h, hset, ih, List.filter_cons]

theorem map_key_filter {C : Type} (l : List (Entry C)) (k : Nat) :
    ((l.filter (fun n => n.key != k)).map (fun e => e.key))
      = (l.map (fun e => e.key)).filter (fun x => x != k) := by
  induction l with
  | nil => rfl
  | cons e rest ih =>
    by_cases h : e.key = k <;> simp [List.filter_cons, h, ih]

theorem map_key_update {C : Type} (l : List (Entry C)) (k : Nat)
    (n : NodeOrFactory C) :
    (l.map (fun nn => if nn.key == k then createNode k n else nn)).map
        (fun e => e.key)
      = l.map (fun e => e.key) := by
  rw [List.map_map]
  apply List.map_congr_left
  intro nn _
  by_cases h : nn.key = k <;> simp [h, createNode]

theorem filter_length_split {T E : Type} (hs : List (Nat × HandleState T E)) :
    (unsettledKeys hs).length + settledCount hs = hs.length := by
  induction hs with
  | nil => rfl
  | cons p rest ih =>
    simp only [settledCount] at ih ⊢
    by_cases h : p.2.settled <;>
      simp [unsettledKeys_cons, List.filter_cons, h] <;> omega

/-! ### Unfolded forms of `show` and `update` -/

theorem showOp_eq {C T E : Type} (s : PortalState C T E) (n : NodeOrFactory C) :
    showOp s n =
      (⟨s.nextKey + 1,
        ⟨s.nodes.id + 1, s.nodes.val ++ [createNode s.nextKey n]⟩,
        s.handles ++ [(s.nextKey, ⟨false, .pending⟩)],
        s.listeners⟩,
       s.nextKey,
       s.listeners.map (fun l =>
         (l, ⟨s.nodes.val ++ [createNode s.nextKey n],
              s.handles ++ [(s.nextKey, ⟨false, .pending⟩)]⟩))) := by
  simp [showOp, regSet, setStore, objectIs]

theorem updateOp_eq {C T E : Type} (s : PortalState C T E) (k : Nat)
    (n : NodeOrFactory C) :
    updateOp s k n =
      (⟨s.nextKey,
        ⟨s.nodes.id + 1,
         s.nodes.val.map (fun nn => if nn.key == k then createNode k n else nn)⟩,
        s.handles,
        s.listeners⟩,
       s.listeners.map (fun l =>
         (l, ⟨s.nodes.val.map (fun nn => if nn.key == k then createNode k n else nn),
              s.handles⟩))) := by
  simp [updateOp, regSet, setStore, objectIs]

/-! ### Preservation of the registry invariant -/

theorem regInv_setHandle_keep {C T E : Type} (s : PortalState C T E) (k : Nat)
    (f : HandleState T E → HandleState T E)
    (hf : ∀ x, (f x).settled = x.settled) (hinv : RegInv s) :
    RegInv { s with handles := setHandle s.handles k f } := by
  obtain ⟨h1, h2⟩ := hinv
  exact ⟨by simpa [unsettledKeys_setHandle_keep _ _ _ hf] using h1,
         by simpa [map_fst_setHandle] using h2⟩

theorem regInv_settleOp {C T E : Type} (s : PortalState C T E) (k : Nat)
    (hinv : RegInv s) : RegInv (settleOp s k).1 := by
  obtain ⟨h1, h2⟩ := hinv
  unfold settleOp
  split
  · exact ⟨h1, h2⟩
  · split
    · exact ⟨h1, h2⟩
    · constructor
      · simp [regSet, setStore, objectIs, map_key_filter,
              unsettledKeys_setHandle_settled, h1]
      · simp [regSet, setStore, objectIs, map_fst_setHandle, h2]

theorem regInv_step {C T E : Type} (s : PortalState C T E) (op : Op C T E)
    (hinv : RegInv s) : RegInv (step s op) := by
  cases op with
  | doShow n =>
    obtain ⟨h1, h2⟩ := hinv
    constructor
    · simp [step, showOp_eq, unsettledKeys_append, unsettledKeys_cons,
            unsettledKeys, createNode, h1]
    · simp [step, showOp_eq, List.range_succ, h2]
  | doResolve k v =>
    exact regInv_settleOp _ _ (regInv_setHandle_keep s k _ (fun x => rfl) hinv)
  | doReject k e =>
    exact regInv_settleOp _ _ (regInv_setHandle_keep s k _ (fun x => rfl) hinv)
  | doUpdate k n =>
    obtain ⟨h1, h2⟩ := hinv
    constructor
    · simp only [step, updateOp_eq]
      rw [map_key_update]
      exact h1
    · simp [step, updateOp_eq, h2]
  | doSubscribe l =>
    exact hinv

theorem settleOp_fields {C T E : Type} (s : PortalState C T E) (k : Nat) :
    (settleOp s k).1.handles.length = s.handles.length
    ∧ (settleOp s k).1.nextKey = s.nextKey
    ∧ (settleOp s k).1.listeners = s.listeners := by
  unfold settleOp
  split
  · simp
  · split
    · simp
    · simp [regSet, setStore, objectIs, setHandle_length]

theorem step_handles_length {C T E : Type} (s : PortalState C T E)
    (op : Op C T E) :
    (step s op).handles.length
      = s.handles.length + (match op with | Op.doShow _ => 1 | _ => 0) := by
  cases op with
  | doShow n => simp [step, showOp_eq]
  | doResolve k v =>
    simp only [step, resolveOp]
    rw [(settleOp_fields _ _).1]
    simp [setHandle_length]
  | doReject k e =>
    simp only [step, rejectOp]
    rw [(settleOp_fields _ _).1]
    simp [setHandle_length]
  | doUpdate k n => simp [step, updateOp_eq]
  | doSubscribe l => rfl

theorem regInv_init {C T E : Type} : RegInv (portalInit : PortalState C T E) :=
  ⟨rfl, rfl⟩

theorem regInv_run {C T E : Type} (ops : List (Op C T E)) :
    ∀ s : PortalState C T E, RegInv s → RegInv (run s ops) := by
  induction ops with
  | nil => intro s h; exact h
  | cons op rest ih =>
    intro s h
    exact ih (step s op) (regInv_step s op h)

theorem run_handles_length {C T E : Type} (ops : List (Op C T E)) :
    ∀ s : PortalState C T E,
      (run s ops).handles.length = s.handles.length + countShows ops := by
  induction ops with
  | nil => intro s; simp [run, countShows]
  | cons op rest ih =>
    intro s
    show (run (step s op) rest).handles.length = _
    rw [ih, step_handles_length]
    cases op <;> (simp [countShows]; try omega)

/-! ### The claims -/

/-- Claim C6: the Reactive Store's `set(f)` computes `next = f(current)`;
when `next` is not reference-identical to `current` it commits `next` as
the snapshot and notifies every subscriber, in subscription order, before
returning; when `next` is reference-identical the snapshot is unchanged
and nobody is notified.  In either case the store ends fully in the old
or fully in the new state. -/
theorem claim6_store_set {S : Type} (refEq : S → S → Bool) (st : Store S)
    (f : S → S) :
    (refEq (f st.state) st.state = false →
      (setStore refEq st f).1.state = f st.state
      ∧ (setStore refEq st f).1.listeners = st.listeners
      ∧ (setStore refEq st f).2 = st.listeners)
    ∧ (refEq (f st.state) st.state = true → setStore refEq st f = (st, [])) := by
  constructor
  · intro h; simp [setStore, h]
  · intro h; simp [setStore, h]

/-- Claim C6 witness: `setStore` at a concrete store, once with a
changing updater and once with the identity. -/
theorem claim6_store_set_wit :
    (setStore (fun a b : Nat => a == b) ⟨0, [5, 9]⟩ (fun x => x + 1)).1.state = 1
    ∧ (setStore (fun a b : Nat => a == b) ⟨0, [5, 9]⟩ (fun x => x + 1)).2 = [5, 9]
    ∧ setStore (fun a b : Nat => a == b) ⟨0, [5, 9]⟩ (fun x => x) = (⟨0, [5, 9]⟩, []) := by
  refine ⟨((claim6_store_set (fun a b : Nat => a == b) ⟨0, [5, 9]⟩
              (fun x => x + 1)).1 (by decide)).1,
          ((claim6_store_set (fun a b : Nat => a == b) ⟨0, [5, 9]⟩
              (fun x => x + 1)).1 (by decide)).2.2,
          (claim6_store_set (fun a b : Nat => a == b) ⟨0, [5, 9]⟩
              (fun x => x)).2 (by decide)⟩

/-- Claim C4: the ambient handle lookup, invoked inside the content of a
`show` call, returns exactly the handle that `show` returned (the entry
appended by `show` publishes that handle as its provider value); invoked
with no enclosing provider it fails with the missing-context error, not a
default value. -/
theorem claim4_ambient_lookup {C T E : Type} (s : PortalState C T E)
    (n : NodeOrFactory C) :
    (∃ en : Entry C,
      (showOp s n).1.nodes.val = s.nodes.val ++ [en]
      ∧ en.providerValue = (showOp s n).2.1
      ∧ useImperativePromise (some en.providerValue)
          = Except.ok ((showOp s n).2.1))
    ∧ useImperativePromise none
        = Except.error "useImperativePromise must be used within an imperative portal" := by
  refine ⟨⟨createNode s.nextKey n, ?_, ?_, ?_⟩, rfl⟩ <;>
    simp [showOp_eq, createNode, useImperativePromise]

/-- Claim C1: on a pending handle, the first `resolve` (respectively
`reject`) fixes the deferred to that value (error), marks the handle
settled, and removes the entry with that key from the visible sequence;
any later `resolve` or `reject` on the same handle returns with the state
completely unchanged and an empty notification trace, leaving the
deferred's outcome the one of the first call. -/
theorem claim1_settle_idempotent {C T E : Type} (s : PortalState C T E)
    (k : Nat) (v v2 : T) (e e2 : E)
    (h : getHandle s.handles k = some ⟨false, Deferred.pending⟩) :
    getHandle (resolveOp s k v).1.handles k = some ⟨true, Deferred.fulfilled v⟩
    ∧ ((resolveOp s k v).1.nodes.val.all (fun en => en.key != k)) = true
    ∧ resolveOp (resolveOp s k v).1 k v2 = ((resolveOp s k v).1, [])
    ∧ rejectOp (resolveOp s k v).1 k e2 = ((resolveOp s k v).1, [])
    ∧ getHandle (rejectOp s k e).1.handles k = some ⟨true, Deferred.rejected e⟩
    ∧ ((rejectOp s k e).1.nodes.val.all (fun en => en.key != k)) = true
    ∧ resolveOp (rejectOp s k e).1 k v2 = ((rejectOp s k e).1, [])
    ∧ rejectOp (rejectOp s k e).1 k e2 = ((rejectOp s k e).1, []) := by
  have hres := resolveOp_of_pending s k v h
  have hrej := rejectOp_of_pending s k e h
  have hs1h : (resolveOp s k v).1.handles
      = setHandle s.handles k (fun hh => ⟨true, deferredResolve hh.deferred v⟩) := by
    rw [hres]
  have hs1n : (resolveOp s k v).1.nodes.val
      = s.nodes.val.filter (fun nn => nn.key != k) := by
    rw [hres]
  have hs2h : (rejectOp s k e).1.handles
      = setHandle s.handles k (fun hh => ⟨true, deferredReject hh.deferred e⟩) := by
    rw [hrej]
  have hs2n : (rejectOp s k e).1.nodes.val
      = s.nodes.val.filter (fun nn => nn.key != k) := by
    rw [hrej]
  have hget1 : getHandle (resolveOp s k v).1.handles k
      = some ⟨true, Deferred.fulfilled v⟩ := by
    rw [hs1h, getHandle_setHandle, h]; rfl
  have hget2 : getHandle (rejectOp s k e).1.handles k
      = some ⟨true, Deferred.rejected e⟩ := by
    rw [hs2h, getHandle_setHandle, h]; rfl
  have hall1 : ((resolveOp s k v).1.nodes.val.all (fun en => en.key != k)) = true := by
    rw [hs1n, List.all_eq_true]
    intro en hen
    exact (List.mem_filter.mp hen).2
  have hall2 : ((rejectOp s k e).1.nodes.val.all (fun en => en.key != k)) = true := by
    rw [hs2n, List.all_eq_true]
    intro en hen
    exact (List.mem_filter.mp hen).2
  have hfix1 : setHandle (resolveOp s k v).1.handles k
      (fun hh => { hh with deferred := deferredResolve hh.deferred v2 })
      = (resolveOp s k v).1.handles := by
    rw [hs1h, setHandle_setHandle]
    congr 1
    funext hh
    simp [deferredResolve_deferredResolve]
  have hfix2 : setHandle (resolveOp s k v).1.handles k
      (fun hh => { hh with deferred := deferredReject hh.deferred e2 })
      = (resolveOp s k v).1.handles := by
    rw [hs1h, setHandle_setHandle]
    congr 1
    funext hh
    simp [deferredReject_deferredResolve]
  have hfix3 : setHandle (rejectOp s k e).1.handles k
      (fun hh => { hh with deferred := deferredResolve hh.deferred v2 })
      = (rejectOp s k e).1.handles := by
    rw [hs2h, setHandle_setHandle]
    congr 1
    funext hh
    simp [deferredResolve_deferredReject]
  have hfix4 : setHandle (rejectOp s k e).1.handles k
      (fun hh => { hh with deferred := deferredReject hh.deferred e2 })
      = (rejectOp s k e).1.handles := by
    rw [hs2h, setHandle_setHandle]
    congr 1
    funext hh
    simp [deferredReject_deferredReject]
  refine ⟨hget1, hall1, ?_, ?_, hget2, hall2, ?_, ?_⟩
  · rw [resolveOp, hfix1]
    exact settleOp_of_settled _ _ _ hget1 rfl
  · rw [rejectOp, hfix2]
    exact settleOp_of_settled _ _ _ hget1 rfl
  · rw [resolveOp, hfix3]
    exact settleOp_of_settled _ _ _ hget2 rfl
  · rw [rejectOp, hfix4]
    exact settleOp_of_settled _ _ _ hget2 rfl

/-- Claim C1 witness: a registry with one shown entry; resolving the
returned handle, then resolving it again, at concrete values. -/
theorem claim1_settle_idempotent_wit :
    getHandle (showOp (portalInit : PortalState Nat Nat Nat) (.plain 0)).1.handles 0
        = some ⟨false, Deferred.pending⟩
    ∧ getHandle (resolveOp (showOp (portalInit : PortalState Nat Nat Nat) (.plain 0)).1 0 42).1.handles 0
        = some ⟨true, Deferred.fulfilled 42⟩
    ∧ resolveOp (resolveOp (showOp (portalInit : PortalState Nat Nat Nat) (.plain 0)).1 0 42).1 0 7
        = ((resolveOp (showOp (portalInit : PortalState Nat Nat Nat) (.plain 0)).1 0 42).1, [])
    ∧ rejectOp (resolveOp (showOp (portalInit : PortalState Nat Nat Nat) (.plain 0)).1 0 42).1 0 9
        = ((resolveOp (showOp (portalInit : PortalState Nat Nat Nat) (.plain 0)).1 0 42).1, []) := by
  refine ⟨by decide, ?_, ?_, ?_⟩
  · exact (claim1_settle_idempotent
      (showOp (portalInit : PortalState Nat Nat Nat) (.plain 0)).1 0 42 7 8 9
      (by decide)).1
  · exact (claim1_settle_idempotent
      (showOp (portalInit : PortalState Nat Nat Nat) (.plain 0)).1 0 42 7 8 9
      (by decide)).2.2.1
  · exact (claim1_settle_idempotent
      (showOp (portalInit : PortalState Nat Nat Nat) (.plain 0)).1 0 42 7 8 9
      (by decide)).2.2.2.1

/-- Claim C2: `update` on a handle whose entry was already removed by
settlement leaves the visible entry sequence exactly as it was (nothing
is created or re-added), raises no error (the operation is total), and
changes neither the handles, the key counter, nor the listeners — the
supplied content is simply discarded. -/
theorem claim2_stale_update {C T E : Type} (s : PortalState C T E) (k : Nat)
    (n : NodeOrFactory C) (h : ∀ en ∈ s.nodes.val, en.key ≠ k) :
    (updateOp s k n).1.nodes.val = s.nodes.val
    ∧ (updateOp s k n).1.handles = s.handles
    ∧ (updateOp s k n).1.nextKey = s.nextKey
    ∧ (updateOp s k n).1.listeners = s.listeners := by
  refine ⟨?_, by rw [updateOp_eq], by rw [updateOp_eq], by rw [updateOp_eq]⟩
  have hval : (updateOp s k n).1.nodes.val
      = s.nodes.val.map (fun nn => if nn.key == k then createNode k n else nn) := by
    rw [updateOp_eq]
  rw [hval]
  have hcong : ∀ x ∈ s.nodes.val,
      (if x.key == k then createNode k n else x) = x := by
    intro x hx
    simp [h x hx]
  simpa using List.map_congr_left hcong

/-- Claim C2 witness: a registry whose single entry was removed by
`resolve`; a later `update` leaves everything unchanged. -/
theorem claim2_stale_update_wit :
    (updateOp (resolveOp (showOp (portalInit : PortalState Nat Nat Nat) (.plain 0)).1 0 5).1 0 (.plain 3)).1.nodes.val
        = (resolveOp (showOp (portalInit : PortalState Nat Nat Nat) (.plain 0)).1 0 5).1.nodes.val
    ∧ (updateOp (resolveOp (showOp (portalInit : PortalState Nat Nat Nat) (.plain 0)).1 0 5).1 0 (.plain 3)).1.handles
        = (resolveOp (showOp (portalInit : PortalState Nat Nat Nat) (.plain 0)).1 0 5).1.handles := by
  refine ⟨(claim2_stale_update
      (resolveOp (showOp (portalInit : PortalState Nat Nat Nat) (.plain 0)).1 0 5).1
      0 (.plain 3) (by decide)).1,
    (claim2_stale_update
      (resolveOp (showOp (portalInit : PortalState Nat Nat Nat) (.plain 0)).1 0 5).1
      0 (.plain 3) (by decide)).2.1⟩

/-- Claim C5: `update` on a handle whose entry is still present replaces
that entry's content in place: the entry keeps its slot (everything to
its left and right unchanged), its key, its provider value, and the same
handle reference; content may be a plain payload or a one-argument
function, which is applied to the entry's own handle. -/
theorem claim5_update_in_place {C T E : Type} (s : PortalState C T E)
    (k : Nat) (n : NodeOrFactory C) (l1 l2 : List (Entry C)) (en : Entry C)
    (c : C) (fc : Nat → C)
    (hsplit : s.nodes.val = l1 ++ en :: l2)
    (hkey : en.key = k)
    (hpr : en.promiseRef = k)
    (hpv : en.providerValue = k)
    (h1 : ∀ x ∈ l1, x.key ≠ k)
    (h2 : ∀ x ∈ l2, x.key ≠ k) :
    (updateOp s k n).1.nodes.val = l1 ++ createNode k n :: l2
    ∧ (createNode k n).key = en.key
    ∧ (createNode k n).promiseRef = en.promiseRef
    ∧ (createNode k n).providerValue = en.providerValue
    ∧ (createNode k (NodeOrFactory.plain c)).child = c
    ∧ (createNode k (NodeOrFactory.factory fc)).child = fc k := by
  refine ⟨?_, by simp [createNode, hkey], by simp [createNode, hpr],
          by simp [createNode, hpv], rfl, rfl⟩
  have hval : (updateOp s k n).1.nodes.val
      = s.nodes.val.map (fun nn => if nn.key == k then createNode k n else nn) := by
    rw [updateOp_eq]
  have e1 : l1.map (fun nn => if nn.key == k then createNode k n else nn) = l1 := by
    have : ∀ x ∈ l1, (if x.key == k then createNode k n else x) = x := by
      intro x hx; simp [h1 x hx]
    simpa using List.map_congr_left this
  have e2 : l2.map (fun nn => if nn.key == k then createNode k n else nn) = l2 := by
    have : ∀ x ∈ l2, (if x.key == k then createNode k n else x) = x := by
      intro x hx; simp [h2 x hx]
    simpa using List.map_congr_left this
  rw [hval, hsplit, List.map_append, List.map_cons, e1, e2]
  simp [hkey]

/-- Claim C5 witness: two shown entries; updating the first replaces it
in place and leaves the second untouched. -/
theorem claim5_update_in_place_wit :
    (updateOp (showOp (showOp (portalInit : PortalState Nat Nat Nat) (.plain 10)).1 (.plain 20)).1 0 (.plain 99)).1.nodes.val
      = [] ++ createNode 0 (.plain 99) :: [⟨1, 1, 20, 1⟩]
    ∧ (createNode 0 (NodeOrFactory.plain (99 : Nat))).key = (0 : Nat) := by
  refine ⟨(claim5_update_in_place
      (showOp (showOp (portalInit : PortalState Nat Nat Nat) (.plain 10)).1 (.plain 20)).1
      0 (.plain 99) [] [⟨1, 1, 20, 1⟩] ⟨0, 0, 10, 0⟩ 99 (fun x => x)
      (by decide) (by decide) (by decide) (by decide)
      (by decide) (by decide)).1, rfl⟩

/-- Claim C3: after any sequence of calls from a fresh registry, the
visible entry count plus the number of settled handles equals the number
of `show` calls; the visible keys are exactly the unsettled handles'
keys, in the order `show` generated them (the handles list carries the
generated keys in call order); `update` never changes the key order; and
settlement removes a slot without reordering the remaining entries (the
new sequence is a sublist of the old). -/
theorem claim3_visible_order {C T E : Type} (ops : List (Op C T E)) (k : Nat)
    (n : NodeOrFactory C) :
    ((run portalInit ops).nodes.val.length
        + settledCount (run (portalInit : PortalState C T E) ops).handles
        = countShows ops)
    ∧ ((run portalInit ops).nodes.val.map (fun e => e.key)
        = unsettledKeys (run (portalInit : PortalState C T E) ops).handles)
    ∧ ((run portalInit ops).handles.map (fun p => p.1)
        = List.range (run (portalInit : PortalState C T E) ops).nextKey)
    ∧ ((updateOp (run portalInit ops) k n).1.nodes.val.map (fun e => e.key)
        = (run (portalInit : PortalState C T E) ops).nodes.val.map (fun e => e.key))
    ∧ List.Sublist (settleOp (run portalInit ops) k).1.nodes.val
        (run (portalInit : PortalState C T E) ops).nodes.val := by
  obtain ⟨h1, h2⟩ := regInv_run ops (portalInit : PortalState C T E) regInv_init
  refine ⟨?_, h1, h2, ?_, ?_⟩
  · have hlen := run_handles_length ops (portalInit : PortalState C T E)
    have h0 : (portalInit : PortalState C T E).handles.length = 0 := rfl
    rw [h0, Nat.zero_add] at hlen
    have hsplit := filter_length_split (run (portalInit : PortalState C T E) ops).handles
    have hmap : (run (portalInit : PortalState C T E) ops).nodes.val.length
        = (unsettledKeys (run (portalInit : PortalState C T E) ops).handles).length := by
      rw [← h1, List.length_map]
    omega
  · have hval : (updateOp (run (portalInit : PortalState C T E) ops) k n).1.nodes.val
        = (run (portalInit : PortalState C T E) ops).nodes.val.map
            (fun nn => if nn.key == k then createNode k n else nn) := by
      rw [updateOp_eq]
    rw [hval, map_key_update]
  · rcases hget : getHandle (run (portalInit : PortalState C T E) ops).handles k
        with _ | hh
    · rw [settleOp_of_none _ _ hget]
    · by_cases hset : hh.settled = true
      · rw [settleOp_of_settled _ _ _ hget hset]
      · rw [settleOp_of_unsettled _ _ _ hget (by simpa using hset)]
        exact List.filter_sublist _

/-- Claim C8: every `show` call's key is distinct from every key
previously generated in the registry (the keys already carried by
handles), and at every reachable state the visible keys are pairwise
distinct — at most one entry per key. -/
theorem claim8_fresh_keys {C T E : Type} (ops : List (Op C T E))
    (n : NodeOrFactory C) :
    ((showOp (run portalInit ops) n).2.1 ∉
        (run (portalInit : PortalState C T E) ops).handles.map (fun p => p.1))
    ∧ ((run (portalInit : PortalState C T E) ops).nodes.val.map
        (fun e => e.key)).Nodup := by
  obtain ⟨h1, h2⟩ := regInv_run ops (portalInit : PortalState C T E) regInv_init
  constructor
  · have hk : (showOp (run (portalInit : PortalState C T E) ops) n).2.1
        = (run (portalInit : PortalState C T E) ops).nextKey := by
      rw [showOp_eq]
    rw [hk, h2]
    simp
  · rw [h1]
    have hsub : List.Sublist
        (unsettledKeys (run (portalInit : PortalState C T E) ops).handles)
        ((run (portalInit : PortalState C T E) ops).handles.map (fun p => p.1)) := by
      unfold unsettledKeys
      exact List.Sublist.map _ (List.filter_sublist _)
    have hnd : ((run (portalInit : PortalState C T E) ops).handles.map
        (fun p => p.1)).Nodup := by
      rw [h2]; exact List.nodup_range _
    exact List.Nodup.sublist hsub hnd

/-- Claim C7: two registries from two `createImperativePortal()` calls
share no state: any interleaved call sequence against the pair
decomposes into the two registries' own runs — every `show`, `update`,
`resolve` or `reject` routed to one registry leaves the other registry's
state (entries, handles, key counter, listeners) exactly as its own
calls alone determine it. -/
theorem claim7_registry_independent {C T E : Type}
    (w : PortalState C T E × PortalState C T E)
    (ops : List (Bool × Op C T E)) :
    (runPair w ops).1
        = run w.1 ((ops.filter (fun p => p.1)).map (fun p => p.2))
    ∧ (runPair w ops).2
        = run w.2 ((ops.filter (fun p => !p.1)).map (fun p => p.2)) := by
  induction ops generalizing w with
  | nil => exact ⟨rfl, rfl⟩
  | cons op rest ih =>
    rcases op with ⟨b, o⟩
    cases b
    · constructor
      · simpa [runPair, run, stepEither, List.filter_cons]
          using (ih (w.1, step w.2 o)).1
      · simpa [runPair, run, stepEither, List.filter_cons]
          using (ih (w.1, step w.2 o)).2
    · constructor
      · simpa [runPair, run, stepEither, List.filter_cons]
          using (ih (step w.1 o, w.2)).1
      · simpa [runPair, run, stepEither, List.filter_cons]
          using (ih (step w.1 o, w.2)).2

/-- Claim C9: inside `settle`, the entry is filtered out of the sequence
strictly before the `settled` flag is set: every listener notified by
the removal observes the sequence already without the entry while the
handle states it can read are still the pre-settlement ones, where the
settling handle reads `settled = false`; only the final state returned
by `settle` carries `settled = true`. -/
theorem claim9_remove_before_flag {C T E : Type} (s : PortalState C T E)
    (k : Nat) (d : Deferred T E)
    (h : getHandle s.handles k = some ⟨false, d⟩) :
    (settleOp s k).2
        = s.listeners.map (fun l =>
            (l, ⟨s.nodes.val.filter (fun nn => nn.key != k), s.handles⟩))
    ∧ (settleOp s k).1.nodes.val = s.nodes.val.filter (fun nn => nn.key != k)
    ∧ getHandle (settleOp s k).1.handles k = some ⟨true, d⟩ := by
  rw [settleOp_of_unsettled s k ⟨false, d⟩ h rfl]
  refine ⟨rfl, rfl, ?_⟩
  show getHandle (setHandle s.handles k (fun hh => { hh with settled := true })) k
      = some ⟨true, d⟩
  rw [getHandle_setHandle, h]
  rfl

/-- Claim C9 witness: one subscriber, one pending entry; settling shows
the subscriber a sequence already missing the entry while the handle
still reads unsettled. -/
theorem claim9_remove_before_flag_wit :
    (settleOp (subscribeOp (showOp (portalInit : PortalState Nat Nat Nat) (.plain 0)).1 7) 0).2
      = (subscribeOp (showOp (portalInit : PortalState Nat Nat Nat) (.plain 0)).1 7).listeners.map
          (fun l => (l, ⟨(subscribeOp (showOp (portalInit : PortalState Nat Nat Nat) (.plain 0)).1 7).nodes.val.filter (fun nn => nn.key != 0),
                         (subscribeOp (showOp (portalInit : PortalState Nat Nat Nat) (.plain 0)).1 7).handles⟩))
    ∧ getHandle (settleOp (subscribeOp (showOp (portalInit : PortalState Nat Nat Nat) (.plain 0)).1 7) 0).1.handles 0
      = some ⟨true, Deferred.pending⟩ := by
  refine ⟨(claim9_remove_before_flag
      (subscribeOp (showOp (portalInit : PortalState Nat Nat Nat) (.plain 0)).1 7)
      0 Deferred.pending (by decide)).1,
    (claim9_remove_before_flag
      (subscribeOp (showOp (portalInit : PortalState Nat Nat Nat) (.plain 0)).1 7)
      0 Deferred.pending (by decide)).2.2⟩

/-- Claim C10: every `update` call rebuilds the sequence as a fresh
array, never reference-identical to the previous one, so the store
commits it and notifies every subscriber in subscription order — even a
stale `update` whose key matches no entry, for which the committed list
is element-wise identical to the old one. -/
theorem claim10_update_notifies {C T E : Type} (s : PortalState C T E)
    (k : Nat) (n : NodeOrFactory C) :
    ((updateOp s k n).2.map (fun p => p.1) = s.listeners)
    ∧ (updateOp s k n).1.nodes.id ≠ s.nodes.id
    ∧ ((∀ en ∈ s.nodes.val, en.key ≠ k)
        → (updateOp s k n).1.nodes.val = s.nodes.val) := by
  refine ⟨?_, ?_, ?_⟩
  · rw [updateOp_eq]
    rw [List.map_map]
    show List.map (fun l => l) s.listeners = s.listeners
    simp
  · rw [updateOp_eq]
    simp
  · intro hm
    have hval : (updateOp s k n).1.nodes.val
        = s.nodes.val.map (fun nn => if nn.key == k then createNode k n else nn) := by
      rw [updateOp_eq]
    rw [hval]
    have hcong : ∀ x ∈ s.nodes.val,
        (if x.key == k then createNode k n else x) = x := by
      intro x hx
      simp [hm x hx]
    simpa using List.map_congr_left hcong

/-- Claim C10 witness: a subscriber and an already-settled handle; the
stale `update` still notifies the subscriber and commits an element-wise
identical list under a fresh reference. -/
theorem claim10_update_notifies_wit :
    ((updateOp (resolveOp (subscribeOp (showOp (portalInit : PortalState Nat Nat Nat) (.plain 0)).1 7) 0 5).1 0 (.plain 3)).2.map (fun p => p.1)
        = (resolveOp (subscribeOp (showOp (portalInit : PortalState Nat Nat Nat) (.plain 0)).1 7) 0 5).1.listeners)
    ∧ (updateOp (resolveOp (subscribeOp (showOp (portalInit : PortalState Nat Nat Nat) (.plain 0)).1 7) 0 5).1 0 (.plain 3)).1.nodes.val
        = (resolveOp (subscribeOp (showOp (portalInit : PortalState Nat Nat Nat) (.plain 0)).1 7) 0 5).1.nodes.val := by
  refine ⟨(claim10_update_notifies
      (resolveOp (subscribeOp (showOp (portalInit : PortalState Nat Nat Nat) (.plain 0)).1 7) 0 5).1
      0 (.plain 3)).1,
    (claim10_update_notifies
      (resolveOp (subscribeOp (showOp (portalInit : PortalState Nat Nat Nat) (.plain 0)).1 7) 0 5).1
      0 (.plain 3)).2.2 (by decide)⟩
